import Mathlib

/-!
Verification of the CSV row-validation and batch-ingest pipeline
(`base.py` and `handler.py`).

The Python code is shallowly embedded: validators become total functions
returning `Except String Unit` (a `ValidationError` is the `.error` case,
carrying its message), CSV rows become association lists from column name
to an optional string (a `none` value models both an absent key and a
`None` cell produced by the CSV reader), and the chunked loader becomes a
pure function from the row stream to the list of bulk-insert calls handed
to the database sink.  Behaviour of the Python standard library that the
code relies on (`re` prefix matching, `datetime.strptime`, `int`,
`str.strip`, `mimetypes.guess_type`) is modelled explicitly next to its
use site.
-/

deriving instance DecidableEq for Except

/-- Characters accepted by the character class `[a-zA-Z]` of the batch
pattern (ASCII letters only, as in Python `re`). -/
def isAsciiLetter (c : Char) : Bool :=
  ('a' ≤ c && c ≤ 'z') || ('A' ≤ c && c ≤ 'Z')

/-- Result of `re.compile(f'[a-zA-Z]{length}').match(value)` viewed as a
Bool: Python `match` anchors at the start only, so it succeeds exactly when
the string has at least `length` characters and the first `length` of them
are ASCII letters. -/
def regexPrefixMatch (length : Nat) (cs : List Char) : Bool :=
  length ≤ cs.length && (cs.take length).all isAsciiLetter

/-- Embedding of `BatchValidator.__call__` from `base.py`: raises
`ValidationError` when the prefix regex does not match or the total length
differs from the configured length. -/
def BatchValidator.call (length : Nat) (value : String) : Except String Unit :=
  if regexPrefixMatch length value.data = false ∨ value.length ≠ length then
    Except.error ("Invalid batch provided: " ++ value)
  else
    Except.ok ()

/-- Python rendering of an optional string value inside an f-string
(`None` prints as `None`). -/
def pyShow : Option String → String
  | Option.none => "None"
  | some s => s

/-- Python `str.lower` restricted to ASCII case folding, which is all the
comparison against the ASCII tokens `'false'`/`'true'` can depend on. -/
def pyLower (cs : List Char) : List Char :=
  cs.map Char.toLower

/-- Embedding of `BoolValidator.__call__` from `base.py`.  The input is an
optional string because the Python function is also reachable with `None`
(`(value or '').lower()` coerces a falsy value to the empty string before
lower-casing). -/
def BoolValidator.call (value : Option String) : Except String Unit :=
  let coerced : String :=
    match value with
    | Option.none => ""
    | some s => if s = "" then "" else s
  if pyLower coerced.data = "false".data ∨ pyLower coerced.data = "true".data then
    Except.ok ()
  else
    Except.error ("Invalid boolean value: " ++ pyShow value)

/-- Digit candidates for the strptime field `%Y` (regex `\d\d\d\d`),
returned as (parsed value, remaining input). -/
def yearCands : List Char → List (Nat × List Char)
  | a :: b :: c :: d :: rest =>
    if a.isDigit ∧ b.isDigit ∧ c.isDigit ∧ d.isDigit then
      [(1000 * (a.toNat - 48) + 100 * (b.toNat - 48) + 10 * (c.toNat - 48)
          + (d.toNat - 48), rest)]
    else []
  | _ => []

/-- Candidates for `%m` (regex `1[0-2]|0[1-9]|[1-9]`), in the alternation
order CPython's `_strptime` uses. -/
def monthCands : List Char → List (Nat × List Char)
  | c1 :: c2 :: rest =>
    (if c1 = '1' ∧ '0' ≤ c2 ∧ c2 ≤ '2' then [(10 + (c2.toNat - 48), rest)] else []) ++
    (if c1 = '0' ∧ '1' ≤ c2 ∧ c2 ≤ '9' then [(c2.toNat - 48, rest)] else []) ++
    (if '1' ≤ c1 ∧ c1 ≤ '9' then [(c1.toNat - 48, c2 :: rest)] else [])
  | [c1] => if '1' ≤ c1 ∧ c1 ≤ '9' then [(c1.toNat - 48, [])] else []
  | [] => []

/-- Candidates for `%d` (regex `3[01]|[12]\d|0[1-9]|[1-9]`). -/
def dayCands : List Char → List (Nat × List Char)
  | c1 :: c2 :: rest =>
    (if c1 = '3' ∧ ('0' ≤ c2 ∧ c2 ≤ '1') then [(30 + (c2.toNat - 48), rest)] else []) ++
    (if ('1' ≤ c1 ∧ c1 ≤ '2') ∧ c2.isDigit then
      [(10 * (c1.toNat - 48) + (c2.toNat - 48), rest)] else []) ++
    (if c1 = '0' ∧ '1' ≤ c2 ∧ c2 ≤ '9' then [(c2.toNat - 48, rest)] else []) ++
    (if '1' ≤ c1 ∧ c1 ≤ '9' then [(c1.toNat - 48, c2 :: rest)] else [])
  | [c1] => if '1' ≤ c1 ∧ c1 ≤ '9' then [(c1.toNat - 48, [])] else []
  | [] => []

/-- Candidates for `%H` (regex `2[0-3]|[0-1]\d|\d`). -/
def hourCands : List Char → List (Nat × List Char)
  | c1 :: c2 :: rest =>
    (if c1 = '2' ∧ ('0' ≤ c2 ∧ c2 ≤ '3') then [(20 + (c2.toNat - 48), rest)] else []) ++
    (if ('0' ≤ c1 ∧ c1 ≤ '1') ∧ c2.isDigit then
      [(10 * (c1.toNat - 48) + (c2.toNat - 48), rest)] else []) ++
    (if c1.isDigit then [(c1.toNat - 48, c2 :: rest)] else [])
  | [c1] => if c1.isDigit then [(c1.toNat - 48, [])] else []
  | [] => []

/-- Candidates for `%M` (regex `[0-5]\d|\d`). -/
def minuteCands : List Char → List (Nat × List Char)
  | c1 :: c2 :: rest =>
    (if ('0' ≤ c1 ∧ c1 ≤ '5') ∧ c2.isDigit then
      [(10 * (c1.toNat - 48) + (c2.toNat - 48), rest)] else []) ++
    (if c1.isDigit then [(c1.toNat - 48, c2 :: rest)] else [])
  | [c1] => if c1.isDigit then [(c1.toNat - 48, [])] else []
  | [] => []

/-- Candidates for `%S` (regex `6[0-1]|[0-5]\d|\d`; 60 and 61 are leap
seconds that the regex admits but `datetime` later rejects). -/
def secondCands : List Char → List (Nat × List Char)
  | c1 :: c2 :: rest =>
    (if c1 = '6' ∧ ('0' ≤ c2 ∧ c2 ≤ '1') then [(60 + (c2.toNat - 48), rest)] else []) ++
    (if ('0' ≤ c1 ∧ c1 ≤ '5') ∧ c2.isDigit then
      [(10 * (c1.toNat - 48) + (c2.toNat - 48), rest)] else []) ++
    (if c1.isDigit then [(c1.toNat - 48, c2 :: rest)] else [])
  | [c1] => if c1.isDigit then [(c1.toNat - 48, [])] else []
  | [] => []

/-- Literal character of the format string, matched case-insensitively
(CPython compiles the strptime regex with `re.IGNORECASE`). -/
def litCand (ch : Char) : List Char → List (List Char)
  | c :: rest => if c.toLower = ch.toLower then [rest] else []
  | [] => []

/-- Backtracking parse of the fixed format `%Y-%m-%dT%H:%M:%S`, modelling
CPython `_strptime` for this format: each field tries its regex
alternatives in order, and the whole input must be consumed (otherwise
strptime raises on unconverted data). -/
def strptimeDT (s : String) : Option (Nat × Nat × Nat × Nat × Nat × Nat) :=
  (yearCands s.data).findSome? fun yc =>
    (litCand '-' yc.2).findSome? fun r1 =>
      (monthCands r1).findSome? fun mo =>
        (litCand '-' mo.2).findSome? fun r2 =>
          (dayCands r2).findSome? fun dy =>
            (litCand 'T' dy.2).findSome? fun r3 =>
              (hourCands r3).findSome? fun hr =>
                (litCand ':' hr.2).findSome? fun r4 =>
                  (minuteCands r4).findSome? fun mi =>
                    (litCand ':' mi.2).findSome? fun r5 =>
                      (secondCands r5).findSome? fun sc =>
                        if sc.2 = [] then
                          some (yc.1, mo.1, dy.1, hr.1, mi.1, sc.1)
                        else Option.none

/-- Gregorian leap-year rule used by `datetime`. -/
def isLeapYear (y : Nat) : Bool :=
  y % 4 = 0 && (y % 100 ≠ 0 || y % 400 = 0)

/-- Number of days of a month, as enforced by the `datetime` constructor. -/
def daysInMonth (y m : Nat) : Nat :=
  if m = 2 then (if isLeapYear y then 29 else 28)
  else if m = 4 ∨ m = 6 ∨ m = 9 ∨ m = 11 then 30 else 31

/-- Success of `datetime.strptime(value, '%Y-%m-%dT%H:%M:%S')`: the string
parses under the format and the parsed fields form a legal `datetime`
(year at least 1, day within the month, second below 60). -/
def datetimeValid (s : String) : Bool :=
  match strptimeDT s with
  | some (y, m, d, _hh, _mi, ss) =>
    1 ≤ y && 1 ≤ d && d ≤ daysInMonth y m && ss ≤ 59
  | Option.none => false

/-- Embedding of `DateValidator.__call__` from `base.py`, specialised to
the format `'%Y-%m-%dT%H:%M:%S'` used by `RowValidator`. -/
def DateValidator.call (value : String) : Except String Unit :=
  if datetimeValid value then Except.ok ()
  else
    Except.error
      ("Invalid date value: " ++ value ++ ". Expected format: %Y-%m-%dT%H:%M:%S")

/-- Python `self.label or 'value'` for the delegate validator message. -/
def labelOrValue : Option String → String
  | Option.none => "value"
  | some l => if l = "" then "value" else l

/-- Embedding of `FuncValidator.__call__` from `base.py`: run the wrapped
function, and turn any exception it raises into a `ValidationError` whose
message embeds the label and the underlying error. -/
def FuncValidator.call {α : Type} (label : Option String)
    (func : String → Except String α) (value : String) : Except String Unit :=
  match func value with
  | Except.ok _ => Except.ok ()
  | Except.error ex =>
    Except.error
      ("Invalid " ++ labelOrValue label ++ " provided: " ++ value ++ ". Error: " ++ ex)

/-- Whitespace stripped by Python `str.strip` and by `int` (ASCII subset). -/
def isPySpace (c : Char) : Bool :=
  c = ' ' || c = '\t' || c = '\n' || c = '\r' || c = '\x0b' || c = '\x0c'

/-- Python `str.strip()` on a character list. -/
def stripWs (cs : List Char) : List Char :=
  ((cs.dropWhile isPySpace).reverse.dropWhile isPySpace).reverse

/-- Tail of a Python integer literal after its first digit: digits with
single underscores allowed only between digits. -/
def digitsTail : List Char → Bool
  | [] => true
  | '_' :: c :: rest => c.isDigit && digitsTail rest
  | c :: rest => c.isDigit && digitsTail rest

/-- A non-empty digit run (with interior underscores) as accepted after an
optional sign by Python `int`. -/
def digitsRun : List Char → Bool
  | c :: rest => c.isDigit && digitsTail rest
  | [] => false

/-- Acceptance of a whole decimal literal by Python `int(str)`: optional
surrounding whitespace, optional sign, then a digit run. -/
def intLiteralOk (cs : List Char) : Bool :=
  match cs with
  | '+' :: rest => digitsRun rest
  | '-' :: rest => digitsRun rest
  | rest => digitsRun rest

/-- Model of builtin `int` applied to a string: raises `ValueError` on
anything that is not a decimal integer literal (the returned value is not
used by the validator, so it is not computed). -/
def pyInt (s : String) : Except String Unit :=
  if intLiteralOk (stripWs s.data) then Except.ok ()
  else Except.error ("invalid literal for int() with base 10: " ++ s)

/-- Embedding of `_notempty` from `base.py` on string inputs: raises
`ValueError` for the empty string or a whitespace-only string. -/
def notEmptyFunc (s : String) : Except String Unit :=
  if s = "" ∨ stripWs s.data = [] then
    Except.error "Value cannot be empty or whitespaces only"
  else Except.ok ()

/-- The module-level `NotEmptyValidator = FuncValidator(_notempty)`. -/
def NotEmptyValidator : String → Except String Unit :=
  FuncValidator.call Option.none notEmptyFunc

/-- A CSV row as produced by the reader: an association list from column
name to cell value, where a `none` cell models both an absent key and a
`None` produced for a short row. -/
abbrev Row := List (String × Option String)

/-- Python `row.get(name)`: `None` when the key is absent, otherwise the
stored (possibly `None`) value. -/
def fetch (row : Row) (name : String) : Option String :=
  match List.lookup name row with
  | Option.none => Option.none
  | some v => v

/-- The `RowValidator.columns` schema: the six column validators in the
declared insertion order of `base.py`. -/
def columns : List (String × (String → Except String Unit)) :=
  [("batch", BatchValidator.call 20),
   ("start", DateValidator.call),
   ("end", DateValidator.call),
   ("records", FuncValidator.call Option.none pyInt),
   ("pass", fun v => BoolValidator.call (some v)),
   ("message", NotEmptyValidator)]

/-- Embedding of the loop body of `RowValidator.__call__`: walk the column
list in order; a missing or empty value raises the missing-value error at
once, otherwise the column validator runs and its failure propagates
unchanged. -/
def validateCols : List (String × (String → Except String Unit)) → Row →
    Except String Unit
  | [], _ => Except.ok ()
  | (name, vf) :: rest, row =>
    match fetch row name with
    | Option.none => Except.error ("Missing value for " ++ name)
    | some v =>
      if v = "" then Except.error ("Missing value for " ++ name)
      else
        match vf v with
        | Except.error e => Except.error e
        | Except.ok _ => validateCols rest row

/-- Embedding of `RowValidator.__call__` from `base.py`. -/
def RowValidator.validate (row : Row) : Except String Unit :=
  validateCols columns row

/-- Embedding of `RowValidator.is_valid`: the argument is the stored
`self.err` before the call; the result pairs the returned Bool with the
stored `self.err` after the call (the method first clears it, then stores
the caught `ValidationError` on failure). -/
def RowValidator.is_valid (_err : Option String) (row : Row) :
    Bool × Option String :=
  let cleared : Option String := Option.none
  match RowValidator.validate row with
  | Except.ok _ => (true, cleared)
  | Except.error e => (false, some e)

/-- The Bool the loader sees from `row_validator.is_valid(row)` (the prior
stored error never influences it). -/
def isValidRow (row : Row) : Bool :=
  (RowValidator.is_valid Option.none row).1

/-- Python `str.endswith` on the underlying character lists. -/
def pyEndsWith (path suffix : String) : Bool :=
  suffix.data.isSuffixOf path.data

/-- Modelled from the Python stdlib: `mimetypes.guess_type` restricted to
the file-name extensions arising in this repository (the local file name
created by `S3ObjInfo` preserves the uploaded key's extension).  The type
is guessed from the path alone; nothing else about the input is consulted. -/
def guess_type (path : String) : Option String :=
  if pyEndsWith path ".csv" then some "text/csv"
  else if pyEndsWith path ".png" then some "image/png"
  else Option.none

/-- Loop of the generator `iterate_records` inside `process_records`
(`handler.py`): the first argument is the remaining row stream, the second
the current chunk (`rows` in the source).  Invalid rows are dropped; a
chunk is yielded when its length equals `batch_size` after an append; a
non-empty final chunk is yielded at stream exhaustion. -/
def iterAux (batch_size : Int) : List Row → List Row → List (List Row)
  | [], acc => if acc.isEmpty then [] else [acc]
  | r :: rest, acc =>
    if isValidRow r then
      let acc2 := acc ++ [r]
      if (acc2.length : Int) = batch_size then acc2 :: iterAux batch_size rest []
      else iterAux batch_size rest acc2
    else iterAux batch_size rest acc

/-- Embedding of the generator `iterate_records` from `handler.py`,
returning the list of chunks it yields for a given stream of parsed rows. -/
def iterate_records (rows : List Row) (batch_size : Int) : List (List Row) :=
  iterAux batch_size rows []

/-- Embedding of `process_records` from `handler.py`: the result is the
list of chunks handed to `db.insert`, in call order.  The reading and CSV
parsing of the file is the external record source, so the parsed row
stream is a parameter; the content-type gate is the one the code performs,
`mimetypes.guess_type` on the file path. -/
def process_records (filepath : String) (rows : List Row) (batch_size : Int) :
    List (List Row) :=
  if guess_type filepath = Option.none ∨ guess_type filepath ≠ some "text/csv" then []
  else iterate_records rows batch_size

/-- Chunking described by the spec: cut the list into consecutive groups
of `n`, the last group possibly shorter; a zero `n` never flushes, leaving
one final group. -/
def chunksOf {α : Type} (n : Nat) : List α → List (List α)
  | [] => []
  | x :: xs =>
    if _h : n = 0 then [x :: xs]
    else List.take n (x :: xs) :: chunksOf n (List.drop n (x :: xs))
termination_by l => l.length
decreasing_by
  simp only [List.length_drop, List.length_cons]
  omega

/-- Per-column check described verbatim by the spec sentence for
`validate(row)`: fetch the value; `none` or the empty string yields the
missing-value error; otherwise the column validator's failure is passed on
unchanged; a `none` result means the column is fine. -/
def checkColumnSpec (row : Row) (p : String × (String → Except String Unit)) :
    Option String :=
  match fetch row p.1 with
  | Option.none => some ("Missing value for " ++ p.1)
  | some v =>
    if v = "" then some ("Missing value for " ++ p.1)
    else
      match p.2 v with
      | Except.error e => some e
      | Except.ok _ => Option.none

/-- Row validation described by the spec: the result is determined by the
first failing column in declared order, and success means no column fails. -/
def validateSpec (row : Row) : Except String Unit :=
  match columns.findSome? (checkColumnSpec row) with
  | some e => Except.error e
  | Option.none => Except.ok ()

/-- A column is individually satisfied by a row: present, non-empty and
accepted by its validator. -/
def colOk (row : Row) (p : String × (String → Except String Unit)) : Prop :=
  ∃ v, fetch row p.1 = some v ∧ v ≠ "" ∧ p.2 v = Except.ok ()

/-- A Python value reachable from an `AttrDict`, with an allocation
identifier on every heap object (dict, `AttrDict`, list, tuple) so that
object identity — `x is y` — is expressible: two objects are the same
instance exactly when their identifiers agree, and a freshly allocated
object bears an identifier no existing object has. -/
inductive PyVal : Type where
  | pstr (v : String)
  | pnone
  | dict (id : Nat) (entries : List (String × PyVal))
  | attrDict (id : Nat) (entries : List (String × PyVal))
  | plist (id : Nat) (elems : List PyVal)
  | ptup (id : Nat) (elems : List PyVal)

/-- Element-wise conversion of the list comprehension in
`AttrDict.__getattr__`: each plain-dict item is wrapped in a freshly
allocated `AttrDict` (advancing the allocation counter), every other item
— an existing `AttrDict` included — passes through unchanged. -/
def wrapElems (ctr : Nat) : List PyVal → List PyVal × Nat
  | [] => ([], ctr)
  | PyVal.dict _ es :: rest =>
    let r := wrapElems (ctr + 1) rest
    (PyVal.attrDict ctr es :: r.1, r.2)
  | v :: rest =>
    let r := wrapElems ctr rest
    (v :: r.1, r.2)

/-- In-place update `self[name] = value` on a dict's entry list. -/
def setEntry : List (String × PyVal) → String → PyVal → List (String × PyVal)
  | [], _, _ => []
  | (k, v) :: rest, n, nv =>
    if k = n then (k, nv) :: rest else (k, v) :: setEntry rest n nv

/-- Embedding of `AttrDict.__getattr__` from `base.py`, acting on the
receiver's entry list with an allocation counter: `self.get(name)` fetches
the value (`pnone` when absent); a plain dict is wrapped into a fresh
`AttrDict` and stored back; a list or tuple is converted element-wise into
a freshly allocated list and stored back; anything else is returned as
is.  The result is (returned value, updated entries, updated counter). -/
def getattr (entries : List (String × PyVal)) (name : String) (ctr : Nat) :
    PyVal × List (String × PyVal) × Nat :=
  match (List.lookup name entries).getD PyVal.pnone with
  | PyVal.dict _ es =>
    let nv := PyVal.attrDict ctr es
    (nv, setEntry entries name nv, ctr + 1)
  | PyVal.plist _ elems =>
    let r := wrapElems ctr elems
    let nv := PyVal.plist r.2 r.1
    (nv, setEntry entries name nv, r.2 + 1)
  | PyVal.ptup _ elems =>
    let r := wrapElems ctr elems
    let nv := PyVal.plist r.2 r.1
    (nv, setEntry entries name nv, r.2 + 1)
  | v => (v, entries, ctr)

/-- An element survives the comprehension unchanged iff it is not a plain
dict (so, after a first conversion, every element does). -/
def notPlainDict : PyVal → Prop
  | PyVal.dict _ _ => False
  | _ => True

/-- A fully valid row, taken from the repository's own test data. -/
def rowGood : Row :=
  [("batch", some "oIcACSLYuEWKXVHNeXdK"), ("start", some "2003-09-12T03:32:48"),
   ("end", some "2019-05-29T11:51:43"), ("records", some "100"),
   ("pass", some "true"), ("message", some "the big brown fox")]

/-- An invalid row (23-character batch code), from the test data. -/
def rowBadBatch : Row :=
  [("batch", some "oIcACSLYuEWKXVHNeXdKZYZ"), ("start", some "2003-09-12T03:32:48"),
   ("end", some "2019-05-29T11:51:43"), ("records", some "100"),
   ("pass", some "true"), ("message", some "the big brown")]

/-- A family of five distinct valid rows (differing in `records`). -/
def mkRow (recs : String) : Row :=
  [("batch", some "abcdefghijklmnopqrst"), ("start", some "2021-01-02T03:04:05"),
   ("end", some "2021-01-02T03:04:06"), ("records", some recs),
   ("pass", some "true"), ("message", some "ok")]

/-- Chunking loop of `iterate_records` specialised to a pre-filtered
stream: identical to `iterAux` except that the validity test is gone. -/
def chunkAux (batch_size : Int) : List Row → List Row → List (List Row)
  | [], acc => if acc.isEmpty then [] else [acc]
  | r :: rest, acc =>
    let acc2 := acc ++ [r]
    if (acc2.length : Int) = batch_size then acc2 :: chunkAux batch_size rest []
    else chunkAux batch_size rest acc2

theorem iterAux_filter (bs : Int) :
    ∀ (rows acc : List Row),
      iterAux bs rows acc = chunkAux bs (rows.filter isValidRow) acc := by
  intro rows
  induction rows with
  | nil => intro acc; rfl
  | cons r rest ih =>
    intro acc
    by_cases hv : isValidRow r
    · simp only [iterAux, hv, if_true, List.filter_cons, chunkAux, ih]
    · simp only [iterAux, hv, if_false, List.filter_cons, ih, Bool.false_eq_true]

theorem chunkAux_flatten (bs : Int) :
    ∀ (l acc : List Row), (chunkAux bs l acc).flatten = acc ++ l := by
  intro l
  induction l with
  | nil =>
    intro acc
    cases acc with
    | nil => rfl
    | cons a as => simp [chunkAux]
  | cons r rest ih =>
    intro acc
    simp only [chunkAux]
    split
    · simp [ih]
    · simp [ih]

theorem chunksOf_cons_eq {α : Type} (n : Nat) (l : List α) (hl : l ≠ [])
    (hn : n ≠ 0) : chunksOf n l = l.take n :: chunksOf n (l.drop n) := by
  cases l with
  | nil => exact absurd rfl hl
  | cons x xs => simp [chunksOf, hn]

theorem chunkAux_chunksOf (n : Nat) :
    ∀ (l acc : List Row), acc.length < n →
      chunkAux (n : Int) l acc = chunksOf n (acc ++ l) := by
  intro l
  induction l with
  | nil =>
    intro acc hacc
    cases acc with
    | nil => simp [chunkAux, chunksOf]
    | cons a as =>
      rw [List.append_nil]
      rw [chunksOf_cons_eq n (a :: as) (by simp) (by omega)]
      rw [List.take_of_length_le (Nat.le_of_lt hacc),
        List.drop_eq_nil_of_le (Nat.le_of_lt hacc)]
      simp [chunkAux, chunksOf]
  | cons r rest ih =>
    intro acc hacc
    simp only [chunkAux]
    split
    · rename_i heq
      have hlen : (acc ++ [r]).length = n := by exact_mod_cast heq
      have hne : (acc ++ [r]) ++ rest ≠ [] := by simp
      have hassoc : acc ++ r :: rest = (acc ++ [r]) ++ rest := by simp
      have hlen1 : acc.length + 1 = n := by simpa using hlen
      rw [hassoc, chunksOf_cons_eq n _ hne (by omega)]
      rw [List.take_left' hlen, List.drop_left' hlen]
      rw [ih [] (by simp only [List.length_nil]; omega)]
      simp
    · rename_i hne
      have hlt : (acc ++ [r]).length < n := by
        have h1 : (acc ++ [r]).length = acc.length + 1 := by simp
        have h2 : (acc ++ [r]).length ≠ n := fun hc => hne (by exact_mod_cast hc)
        omega
      rw [ih (acc ++ [r]) hlt]
      simp

theorem filter_invalid_nil (rows : List Row)
    (h : ∀ r ∈ rows, isValidRow r = false) : rows.filter isValidRow = [] := by
  induction rows with
  | nil => rfl
  | cons r rest ih =>
    have hr := h r (by simp)
    simp only [List.filter_cons, hr, Bool.false_eq_true, if_false]
    exact ih fun x hx => h x (by simp [hx])

theorem validateCols_eq_findSome (row : Row) :
    ∀ cols, validateCols cols row =
      (match List.findSome? (checkColumnSpec row) cols with
       | some e => Except.error e
       | Option.none => Except.ok ()) := by
  intro cols
  induction cols with
  | nil => rfl
  | cons p rest ih =>
    obtain ⟨name, vf⟩ := p
    simp only [validateCols, List.findSome?_cons]
    cases hf : fetch row name with
    | none => simp [checkColumnSpec, hf]
    | some v =>
      by_cases hv : v = ""
      · simp [checkColumnSpec, hf, hv]
      · cases hvf : vf v with
        | error e => simp [checkColumnSpec, hf, hv, hvf]
        | ok a => simp [checkColumnSpec, hf, hv, hvf, ih]

theorem validateCols_ok_iff (row : Row) :
    ∀ cols, validateCols cols row = Except.ok () ↔ ∀ p ∈ cols, colOk row p := by
  intro cols
  induction cols with
  | nil => simp [validateCols]
  | cons p rest ih =>
    obtain ⟨name, vf⟩ := p
    simp only [validateCols, List.mem_cons, forall_eq_or_imp]
    cases hf : fetch row name with
    | none =>
      constructor
      · intro h; exact absurd h (by simp)
      · rintro ⟨⟨v, hfv, -, -⟩, -⟩
        simp only [colOk] at hfv
        rw [hf] at hfv
        cases hfv
    | some v =>
      by_cases hv : v = ""
      · subst hv
        simp only [if_true, eq_self_iff_true]
        constructor
        · intro h; exact absurd h (by simp)
        · rintro ⟨⟨w, hfw, hne, -⟩, -⟩
          have hfw2 : fetch row name = some w := hfw
          rw [hf] at hfw2
          cases hfw2
          exact (hne rfl).elim
      · simp only [hv, if_false]
        cases hvf : vf v with
        | error e =>
          constructor
          · intro h; exact absurd h (by simp)
          · rintro ⟨⟨w, hfw, -, hok⟩, -⟩
            have hfw2 : fetch row name = some w := hfw
            rw [hf] at hfw2
            cases hfw2
            have hok2 : vf v = Except.ok () := hok
            rw [hvf] at hok2
            simp at hok2
        | ok a =>
          rw [ih]
          constructor
          · intro h
            exact ⟨⟨v, hf, hv, by cases a; exact hvf⟩, h⟩
          · rintro ⟨-, h⟩
            exact h

theorem wrapElems_id :
    ∀ (elems : List PyVal) (ctr : Nat), (∀ e ∈ elems, notPlainDict e) →
      wrapElems ctr elems = (elems, ctr) := by
  intro elems
  induction elems with
  | nil => intro ctr _; rfl
  | cons v rest ih =>
    intro ctr h
    have hv := h v (by simp)
    have hrest : ∀ e ∈ rest, notPlainDict e := fun e he => h e (by simp [he])
    cases v with
    | pstr s => simp [wrapElems, ih _ hrest]
    | pnone => simp [wrapElems, ih _ hrest]
    | dict i es => exact hv.elim
    | attrDict i es => simp [wrapElems, ih _ hrest]
    | plist i es => simp [wrapElems, ih _ hrest]
    | ptup i es => simp [wrapElems, ih _ hrest]

/-- Claim C1: `RowValidator.validate` walks the six columns in declared
order; a missing (`none`) or empty value fails immediately with the
missing-value error, otherwise the column validator runs and its failure
propagates unchanged; the first failing column determines the result
(`validateSpec` is exactly this first-failure description), and validation
succeeds iff every one of the six columns is present, non-empty and
individually valid. -/
theorem claim_c1_validate_order (row : Row) :
    RowValidator.validate row = validateSpec row
    ∧ (RowValidator.validate row = Except.ok () ↔ ∀ p ∈ columns, colOk row p) := by
  constructor
  · unfold RowValidator.validate validateSpec
    exact validateCols_eq_findSome row columns
  · exact validateCols_ok_iff row columns

/-- Claim C2: for every configured length and every string, the batch
validator accepts exactly the strings of precisely that many ASCII
letters; in particular a longer all-letter string is rejected by the
explicit length check even though the regex anchors only the prefix. -/
theorem claim_c2_batch_exact_length (len : Nat) (value : String) :
    BatchValidator.call len value = Except.ok () ↔
      value.length = len ∧ value.data.all isAsciiLetter = true := by
  have hlen : value.length = value.data.length := rfl
  unfold BatchValidator.call
  split
  · rename_i hcond
    constructor
    · intro h; exact absurd h (by simp)
    · rintro ⟨h1, h2⟩
      rcases hcond with hm | hne
      · have hdl : value.data.length = len := by omega
        have hmt : regexPrefixMatch len value.data = true := by
          unfold regexPrefixMatch
          rw [Bool.and_eq_true]
          refine ⟨by simp [hdl], ?_⟩
          rw [List.take_of_length_le (le_of_eq hdl)]
          exact h2
        rw [hmt] at hm
        cases hm
      · exact (hne h1).elim
  · rename_i hcond
    push_neg at hcond
    obtain ⟨hm, hl⟩ := hcond
    have hm2 : regexPrefixMatch len value.data = true := by
      cases hb : regexPrefixMatch len value.data
      · exact absurd hb hm
      · rfl
    constructor
    · intro _
      refine ⟨hl, ?_⟩
      unfold regexPrefixMatch at hm2
      simp only [Bool.and_eq_true, decide_eq_true_eq] at hm2
      obtain ⟨hle, hall⟩ := hm2
      have hdl : value.data.length = len := by omega
      rw [List.take_of_length_le (le_of_eq hdl)] at hall
      exact hall
    · intro _; rfl

/-- Claim C3: with `batchSize = 2` and five valid rows the sink receives
exactly the chunks `[2, 2, 1]` in input order; in general, for a positive
batch size, the chunks delivered are precisely the valid rows grouped into
consecutive groups of `batchSize` with the non-empty remainder flushed at
stream exhaustion. -/
theorem claim_c3_chunk_sizes :
    iterate_records [mkRow "1", mkRow "2", mkRow "3", mkRow "4", mkRow "5"] 2 =
      [[mkRow "1", mkRow "2"], [mkRow "3", mkRow "4"], [mkRow "5"]]
    ∧ (∀ (n : Nat) (rows : List Row), 0 < n →
        iterate_records rows (n : Int) = chunksOf n (rows.filter isValidRow)) := by
  constructor
  · decide
  · intro n rows hn
    unfold iterate_records
    rw [iterAux_filter, chunkAux_chunksOf n _ [] (by simpa using hn)]
    simp

/-- Witness for C3: the general clause applied at batch size 1 and a
single concrete valid row. -/
theorem claim_c3_witness :
    iterate_records [mkRow "9"] ((1 : Nat) : Int) =
      chunksOf 1 ([mkRow "9"].filter isValidRow) :=
  claim_c3_chunk_sizes.2 1 [mkRow "9"] (by decide)

/-- Counterexample to claim C4 as stated: an input whose blob-declared
content type is `image/png` (≠ `text/csv`) but whose file path ends in
`.csv` and whose content is one valid row.  `process_records` never
consults the declared content type — its gate is `mimetypes.guess_type`
on the path — so it performs a sink call on this input, while the claim
predicts none. -/
theorem claim_c4_counterexample :
    (some "image/png" ≠ some "text/csv") ∧
      process_records "upload.csv" [rowGood] 50 = [[rowGood]] := by
  exact ⟨by decide, by decide⟩

/-- Claim C4 as amended: the skip is decided by the content type the core
itself guesses from the file path's extension, not by the
collaborator-declared type; whenever the guessed type is absent or not
`text/csv`, `process_records` performs no sink calls and no other
observable action. -/
theorem claim_c4_extension_gate (filepath : String) (rows : List Row)
    (batch_size : Int) (h : guess_type filepath ≠ some "text/csv") :
    process_records filepath rows batch_size = [] := by
  unfold process_records
  split
  · rfl
  · rename_i hcond
    push_neg at hcond
    exact absurd hcond.2 h

/-- Witness for the amended C4: a `.png` path with a valid row produces
zero sink calls. -/
theorem claim_c4_witness : process_records "image.png" [rowGood] 50 = [] :=
  claim_c4_extension_gate "image.png" [rowGood] 50 (by decide)

/-- Claim C5: `is_valid` never raises (it is a total function here whose
only failure channel is the stored error), ignores and clears the
previously stored error, returns `true` with the stored error cleared
exactly when `validate` succeeds, and returns `false` with the caught
failure stored when `validate` fails. -/
theorem claim_c5_is_valid (st : Option String) (row : Row) :
    ((RowValidator.is_valid st row).1 = true ↔
        RowValidator.validate row = Except.ok ())
    ∧ (RowValidator.validate row = Except.ok () →
        RowValidator.is_valid st row = (true, Option.none))
    ∧ (∀ e, RowValidator.validate row = Except.error e →
        RowValidator.is_valid st row = (false, some e)) := by
  cases hv : RowValidator.validate row with
  | ok a => cases a; simp [RowValidator.is_valid, hv]
  | error e => simp [RowValidator.is_valid, hv]

/-- Witness for C5: a stale stored error is cleared on a valid row, and
the concrete batch failure is stored on an invalid row. -/
theorem claim_c5_witness :
    RowValidator.is_valid (some "stale") rowGood = (true, Option.none)
    ∧ RowValidator.is_valid Option.none rowBadBatch =
        (false, some "Invalid batch provided: oIcACSLYuEWKXVHNeXdKZYZ") :=
  ⟨(claim_c5_is_valid (some "stale") rowGood).2.1 (by decide),
   (claim_c5_is_valid Option.none rowBadBatch).2.2 _ (by decide)⟩

/-- Claim C6: a CSV input whose rows are all invalid yields zero sink
inserts, and `process_records` completes without raising (totality of the
embedding; data-quality failures are absorbed row by row). -/
theorem claim_c6_all_invalid (filepath : String) (rows : List Row)
    (batch_size : Int) (h : ∀ r ∈ rows, isValidRow r = false) :
    process_records filepath rows batch_size = [] := by
  unfold process_records
  split
  · rfl
  · unfold iterate_records
    rw [iterAux_filter, filter_invalid_nil rows h]
    rfl

/-- Witness for C6: a one-row file whose row has a bad batch code. -/
theorem claim_c6_witness : process_records "upload.csv" [rowBadBatch] 50 = [] :=
  claim_c6_all_invalid "upload.csv" [rowBadBatch] 50 (by decide)

/-- An `AttrDict` whose `rows` key holds a list containing one plain dict,
with allocation identifiers 0 (the list) and 1 (the dict); the allocation
counter for fresh objects starts at 2. -/
def listEntries : List (String × PyVal) :=
  [("rows", PyVal.plist 0 [PyVal.dict 1 [("foo", PyVal.pstr "bar")]])]

/-- An `AttrDict` whose `cfg` key already holds a wrapped `AttrDict`
(allocation identifier 7). -/
def cachedEntries : List (String × PyVal) :=
  [("cfg", PyVal.attrDict 7 [("k", PyVal.pstr "v")])]

/-- Counterexample to claim C7 as stated: for a key holding a sequence,
the first access converts and stores the list (fresh identifier 3, its
dict element wrapped as identifier 2), but the second access rebuilds the
list afresh (identifier 4), so repeated access does not return the
identical wrapped instance. -/
theorem claim_c7_counterexample :
    (getattr listEntries "rows" 2).1 =
        PyVal.plist 3 [PyVal.attrDict 2 [("foo", PyVal.pstr "bar")]]
    ∧ (getattr (getattr listEntries "rows" 2).2.1 "rows"
          (getattr listEntries "rows" 2).2.2).1 =
        PyVal.plist 4 [PyVal.attrDict 2 [("foo", PyVal.pstr "bar")]]
    ∧ PyVal.plist 3 [PyVal.attrDict 2 [("foo", PyVal.pstr "bar")]] ≠
        PyVal.plist 4 [PyVal.attrDict 2 [("foo", PyVal.pstr "bar")]] := by
  refine ⟨rfl, rfl, ?_⟩
  intro h
  injection h with h1 _
  exact absurd h1 (by decide)

/-- Claim C7 as amended: attribute access converts on first touch and
stores the conversion, and for nested plain mappings the cache is
complete — the stored `AttrDict` is returned unchanged, with no new
allocation and no state change, on every later access.  For sequences the
element conversion is cached (already-wrapped elements pass through as the
identical instances), but the containing list is rebuilt with a fresh
identifier on every access, so only the elements — not the sequence
object itself — are stable. -/
theorem claim_c7_lazy_caching :
    (∀ (entries : List (String × PyVal)) (name : String) (i : Nat)
        (es : List (String × PyVal)) (ctr : Nat),
        List.lookup name entries = some (PyVal.attrDict i es) →
          getattr entries name ctr = (PyVal.attrDict i es, entries, ctr))
    ∧ (∀ (entries : List (String × PyVal)) (name : String) (i : Nat)
        (es : List (String × PyVal)) (ctr : Nat),
        List.lookup name entries = some (PyVal.dict i es) →
          getattr entries name ctr =
            (PyVal.attrDict ctr es, setEntry entries name (PyVal.attrDict ctr es),
              ctr + 1))
    ∧ (∀ (entries : List (String × PyVal)) (name : String) (i : Nat)
        (elems : List PyVal) (ctr : Nat),
        List.lookup name entries = some (PyVal.plist i elems) →
        (∀ e ∈ elems, notPlainDict e) →
          getattr entries name ctr =
            (PyVal.plist ctr elems, setEntry entries name (PyVal.plist ctr elems),
              ctr + 1)) := by
  refine ⟨?_, ?_, ?_⟩
  · intro entries name i es ctr h
    unfold getattr
    rw [h]
    rfl
  · intro entries name i es ctr h
    unfold getattr
    rw [h]
    rfl
  · intro entries name i elems ctr h hnd
    unfold getattr
    rw [h]
    simp [wrapElems_id elems ctr hnd]

/-- Witness for the amended C7: accessing a key whose value is already a
wrapped `AttrDict` returns that very instance and leaves the state and the
allocation counter untouched. -/
theorem claim_c7_witness :
    getattr cachedEntries "cfg" 9 =
      (PyVal.attrDict 7 [("k", PyVal.pstr "v")], cachedEntries, 9) :=
  claim_c7_lazy_caching.1 cachedEntries "cfg" 7 [("k", PyVal.pstr "v")] 9 rfl

/-- Claim C8: the delegate validator turns any exception of the wrapped
function into a `ValidationError` and nothing else: it fails exactly when
the wrapped function fails, succeeds exactly when it succeeds, and — its
result living in `Except String Unit` — no other failure kind can escape. -/
theorem claim_c8_delegate {α : Type} (label : Option String)
    (func : String → Except String α) (value : String) :
    ((∃ e, FuncValidator.call label func value = Except.error e) ↔
      (∃ e, func value = Except.error e))
    ∧ (FuncValidator.call label func value = Except.ok () ↔
        ∃ a, func value = Except.ok a) := by
  unfold FuncValidator.call
  cases hf : func value with
  | ok a => simp
  | error e => simp

/-- Claim C9: the boolean-token validator is total on a `None` input: the
`value or ''` coercion turns it into the empty string, which is not a
boolean token, so it raises a `ValidationError` (whose message renders the
original `None`) instead of crashing. -/
theorem claim_c9_bool_none_total :
    BoolValidator.call Option.none = Except.error "Invalid boolean value: None" :=
  rfl

/-- Claim C10: for every integer batch size — zero and negatives included,
where the equality test of the mid-stream flush can never fire — the
concatenation of the chunks the loader delivers equals the sequence of
valid rows in input order: nothing is lost, duplicated or reordered. -/
theorem claim_c10_conservation :
    (∀ (batch_size : Int) (rows : List Row),
        (iterate_records rows batch_size).flatten = rows.filter isValidRow)
    ∧ (∀ (filepath : String) (rows : List Row) (batch_size : Int),
        guess_type filepath = some "text/csv" →
          (process_records filepath rows batch_size).flatten =
            rows.filter isValidRow) := by
  have hmain : ∀ (bs : Int) (rows : List Row),
      (iterate_records rows bs).flatten = rows.filter isValidRow := by
    intro bs rows
    unfold iterate_records
    rw [iterAux_filter, chunkAux_flatten]
    simp
  refine ⟨hmain, ?_⟩
  intro filepath rows bs h
  unfold process_records
  split
  · rename_i hcond
    rcases hcond with h1 | h2
    · rw [h] at h1; cases h1
    · exact absurd h h2
  · exact hmain bs rows

/-- Witness for C10: one valid and one invalid row through the full
loader at a batch size that never fills. -/
theorem claim_c10_witness :
    (process_records "upload.csv" [rowGood, rowBadBatch] 7).flatten =
      [rowGood, rowBadBatch].filter isValidRow :=
  claim_c10_conservation.2 "upload.csv" [rowGood, rowBadBatch] 7 (by decide)
